import Mathlib

/-!
Verification of the kas widget-toolkit excerpt: a shallow embedding of the
layout solver (`src/layout/sizer.rs`), the drag handle (`src/widget/drag.rs`),
the list view bridge (`src/widget/view/list.rs`, `src/widget/view.rs`,
`src/widget/view/data_traits.rs`) and the toolkit action enum
(`src/toolkit.rs`), together with theorems settling the specification claims.

Machine integers: `i32` fields are embedded as `Int`, `u32`/`usize` fields as
`Nat`; the operations under verification (componentwise clamping, saturating
subtraction, list indexing) never rely on wrap-around, and the saturating
subtraction of `u32` is modelled explicitly.
-/

namespace Kas

/-- Modelled from the spec: the geometry module (`kas::geom`) is not part of
the excerpt. `Coord` is a pair of `i32` components (spec section 3:
"Rect — pos: Coord (i32,i32)"), embedded as `Int`. -/
structure Coord where
  x : Int
  y : Int
deriving DecidableEq, Repr

/-- Modelled from the spec: `Size` is a pair of `u32` components (spec
section 3: "size: Size (u32,u32). Invariant: size components are non-negative
by type"), embedded as `Nat`. -/
structure Size where
  w : Nat
  h : Nat
deriving DecidableEq, Repr

/-- Modelled from the spec: a rectangle is a position and a size. -/
structure Rect where
  pos : Coord
  size : Size
deriving DecidableEq, Repr

def Coord.ZERO : Coord := ⟨0, 0⟩

/-- Modelled from the spec: componentwise addition of coordinates. -/
def Coord.add (a b : Coord) : Coord := ⟨a.x + b.x, a.y + b.y⟩

/-- Modelled from the spec: componentwise subtraction of coordinates. -/
def Coord.sub (a b : Coord) : Coord := ⟨a.x - b.x, a.y - b.y⟩

/-- Modelled from the spec: `Coord::from(Size)` converts the non-negative
size components to signed coordinates. -/
def Coord.fromSize (s : Size) : Coord := ⟨(s.w : Int), (s.h : Int)⟩

/-- Modelled from the spec: `Coord::clamped(lo, hi)` clamps each component
into the interval given by the corresponding components of `lo` and `hi`
("offset is always clamped into `[0, track_size - handle_size]`
componentwise"). -/
def Coord.clamped (c lo hi : Coord) : Coord :=
  ⟨min (max c.x lo.x) hi.x, min (max c.y lo.y) hi.y⟩

/-- Modelled from the spec: `u32::saturating_sub`, written with the explicit
saturation branch so that the no-wrap behaviour is part of the definition. -/
def satSub (x y : Nat) : Nat := if y ≤ x then x - y else 0

/-- Modelled from the spec: componentwise saturating subtraction of sizes
(`Size::saturating_sub` used by `ListView::set_rect`). -/
def Size.saturating_sub (a b : Size) : Size := ⟨satSub a.w b.w, satSub a.h b.h⟩

/-! ### DragHandle (src/widget/drag.rs)

The widget state consists of the core rect (handle position and size), the
track rect, the press source held by a grab (if any) and the press offset.
`PressSource` is opaque in the excerpt; it is embedded as `Nat` (only
decidable equality is used). -/

abbrev PressSource := Nat

structure DragHandle where
  core_rect : Rect
  track : Rect
  press_source : Option PressSource
  press_offset : Coord
deriving DecidableEq, Repr

namespace DragHandle

/-- Embeds `DragHandle::new` (drag.rs lines 45-52). -/
def new : DragHandle :=
  { core_rect := ⟨Coord.ZERO, ⟨0, 0⟩⟩
    track := ⟨Coord.ZERO, ⟨0, 0⟩⟩
    press_source := none
    press_offset := Coord.ZERO }

/-- Embeds `DragHandle::offset` (drag.rs lines 63-66):
`self.core.rect.pos - self.track.pos`. -/
def offset (d : DragHandle) : Coord := d.core_rect.pos.sub d.track.pos

/-- Embeds `DragHandle::max_offset` (drag.rs lines 71-74):
`Coord::from(self.track.size) - Coord::from(self.core.rect.size)`. -/
def max_offset (d : DragHandle) : Coord :=
  (Coord.fromSize d.track.size).sub (Coord.fromSize d.core_rect.size)

/-- Embeds `DragHandle::set_offset` (drag.rs lines 80-89). Returns the
updated widget, the clamped offset and whether the handle moved. -/
def set_offset (d : DragHandle) (offset : Coord) : DragHandle × Coord × Bool :=
  let offset := offset.clamped Coord.ZERO d.max_offset
  let handle_pos := d.track.pos.add offset
  if handle_pos ≠ d.core_rect.pos then
    ({ d with core_rect := { d.core_rect with pos := handle_pos } }, offset, true)
  else
    (d, offset, false)

/-- Embeds `DragHandle::set_size_and_offset` (drag.rs lines 57-60): store the
new handle size, then re-clamp via `set_offset`. -/
def set_size_and_offset (d : DragHandle) (size : Size) (offset : Coord) :
    DragHandle × Bool :=
  let d := { d with core_rect := { d.core_rect with size := size } }
  let r := d.set_offset offset
  (r.1, r.2.2)

/-- Embeds `<DragHandle as Layout>::set_rect` (drag.rs lines 142-144): only
the track is stored; the handle rect and offset are not touched. -/
def set_rect (d : DragHandle) (rect : Rect) : DragHandle :=
  { d with track := rect }

end DragHandle

/-! ### Event handling for DragHandle (src/widget/drag.rs lines 149-183) -/

/-- Events relevant to the drag handle; all other event kinds are collapsed
into `Other` (they all take the final catch-all branch of the `match` in
`EvHandler::event`). The fields elided by `..` in the source patterns are
not read by any branch. -/
inductive Event where
  | PressStart (source : PressSource) (coord : Coord)
  | PressMove (source : PressSource) (coord : Coord)
  | PressEnd (source : PressSource)
  | Other (tag : Nat)
deriving DecidableEq, Repr

/-- Responses of the drag handle; its `Handler::Msg` type is `Coord`. -/
inductive Response where
  | None
  | Msg (offset : Coord)
deriving DecidableEq, Repr

/-- Modelled from the spec: the event `Manager` is not part of the excerpt.
Only the pieces the drag handle touches are modelled: whether a
`request_grab` call would succeed (spec: "only one grabber per press source;
a second concurrent grab request for the same source is rejected"), and a
count of issued redraw requests. -/
structure Manager where
  grab_ok : Bool
  redraws : Nat
deriving DecidableEq, Repr

/-- Modelled from the spec: `Manager::request_grab` returns whether the grab
was granted; the excerpt does not contain its body. -/
def Manager.request_grab (mgr : Manager) : Manager × Bool := (mgr, mgr.grab_ok)

/-- Modelled from the spec: `Manager::redraw` records a redraw request. -/
def Manager.redraw (mgr : Manager) : Manager := { mgr with redraws := mgr.redraws + 1 }

/-- Modelled from the spec: `Manager::handle_generic` — "all others pass
through generic handling"; generic handling sees the widget only through its
generic interface and does not touch the drag-specific state (track, handle
rect, press bookkeeping). -/
def Manager.handle_generic (d : DragHandle) (mgr : Manager) (_e : Event) :
    DragHandle × Manager × Response :=
  (d, mgr, Response.None)

namespace DragHandle

/-- Embeds `DragHandle::grab_press` (drag.rs lines 117-127): on success the
press source is recorded. -/
def grab_press (d : DragHandle) (mgr : Manager) (source : PressSource) :
    DragHandle × Manager × Bool :=
  let r := mgr.request_grab
  if r.2 then
    ({ d with press_source := some source }, r.1, true)
  else
    (d, r.1, false)

/-- Embeds `<DragHandle as EvHandler>::event` (drag.rs lines 155-182). The
`if Some(source) == self.press_source` match guards become `if` tests whose
failure falls through to the catch-all `handle_generic` branch, exactly as a
failed match guard does in the source. -/
def event (d : DragHandle) (mgr : Manager) (e : Event) :
    DragHandle × Manager × Response :=
  match e with
  | .PressStart source coord =>
    let r := d.grab_press mgr source
    if r.2.2 then
      let d := r.1
      ({ d with press_offset := coord.sub d.offset }, r.2.1, Response.None)
    else
      (r.1, r.2.1, Response.None)
  | .PressMove source coord =>
    if some source = d.press_source then
      let offset := coord.sub d.press_offset
      let r := d.set_offset offset
      if r.2.2 then
        (r.1, mgr.redraw, Response.Msg r.2.1)
      else
        (r.1, mgr, Response.None)
    else
      Manager.handle_generic d mgr e
  | .PressEnd source =>
    if some source = d.press_source then
      ({ d with press_source := none }, mgr, Response.None)
    else
      Manager.handle_generic d mgr e
  | .Other _ =>
    Manager.handle_generic d mgr e

end DragHandle

/-! ### Layout solver (src/layout/sizer.rs) -/

/-- Modelled from the spec: `StretchPriority` is an "ordered enum: None, Low,
High, Filler" (spec section 3); the type itself is not in the excerpt. -/
inductive StretchPriority where
  | None
  | Low
  | High
  | Filler
deriving DecidableEq, Repr

/-- Modelled from the spec: `SizeRules` — "fields: `min: u32`, `ideal: u32`,
`stretch: StretchPriority`, `margins: (u16, u16)`" (spec section 3); the
type itself is not in the excerpt. -/
structure SizeRules where
  min : Nat
  ideal : Nat
  stretch : StretchPriority
  margins : Nat × Nat
deriving DecidableEq, Repr

/-- Modelled from the spec: `SizeRules::EMPTY` — "min=0, ideal=0,
stretch=None, margins=(0,0)" (spec section 4.1). -/
def SizeRules.EMPTY : SizeRules :=
  { min := 0, ideal := 0, stretch := StretchPriority.None, margins := (0, 0) }

/-- Modelled from the spec: `AxisInfo` — "`is_vertical: bool`,
`other_axis_resolved: Option<u32>`" (spec section 3); its definition is not
in the excerpt, but `AxisInfo::new(vertical, fixed)` is called by `solve`. -/
structure AxisInfo where
  is_vertical : Bool
  other_axis_resolved : Option Nat
deriving DecidableEq, Repr

/-- Modelled from the spec: `AxisInfo::new` packs the two fields. -/
def AxisInfo.new (vertical : Bool) (fixed : Option Nat) : AxisInfo :=
  { is_vertical := vertical, other_axis_resolved := fixed }

/-- Result of a fallible (possibly panicking) operation. -/
inductive Panics (α : Type) where
  | ok (value : α)
  | panicked (msg : String)
deriving DecidableEq, Repr

/-- Embeds `<() as RulesSolver>::for_child` (sizer.rs lines 54-61): a no-op
on the unit storage. -/
def unitSolver_for_child (storage : Unit) : Unit := storage

/-- Embeds `<() as RulesSolver>::finish` (sizer.rs lines 66-78): the body is
`unimplemented!()`, which panics with "not implemented" regardless of the
span iterators or of any preceding `for_child` calls. -/
def unitSolver_finish (_col_spans _row_spans : List (Nat × Nat × Nat)) :
    Panics SizeRules :=
  Panics.panicked "not implemented"

/-- Trace of the two `size_rules` calls made by `solve`: the `AxisInfo`
argument passed and the `SizeRules` result obtained for each pass. -/
structure SolveTrace where
  horiz_axis : AxisInfo
  horiz_result : SizeRules
  vert_axis : AxisInfo
  vert_result : SizeRules
deriving DecidableEq, Repr

/-- Embeds `solve` (sizer.rs lines 106-111): `size_rules` is called first
with `AxisInfo::new(false, None)` and then with
`AxisInfo::new(true, Some(size.0))`; both results are bound to discarded
variables (`_w`, `_h`). The widget is abstracted by its `size_rules`
function; the trace records the arguments passed and results obtained. -/
def solve (size_rules : AxisInfo → SizeRules) (size : Size) : SolveTrace :=
  let w := size_rules (AxisInfo.new false none)
  let h := size_rules (AxisInfo.new true (some size.w))
  { horiz_axis := AxisInfo.new false none
    horiz_result := w
    vert_axis := AxisInfo.new true (some size.w)
    vert_result := h }

/-! ### Toolkit actions (src/toolkit.rs lines 20-36) -/

/-- Embeds `TkAction` (toolkit.rs lines 22-36), which derives `Ord`; the
derived order is declaration order: `None`, `Redraw`, `Reconfigure`,
`Close`, `CloseAll`. -/
inductive TkAction where
  | None
  | Redraw
  | Reconfigure
  | Close
  | CloseAll
deriving DecidableEq, Repr, Fintype

/-- Severity rank of a `TkAction`, i.e. its declaration index; the derived
`Ord`/`PartialOrd` on the enum compares by this rank. -/
def TkAction.sev : TkAction → Nat
  | TkAction.None => 0
  | TkAction.Redraw => 1
  | TkAction.Reconfigure => 2
  | TkAction.Close => 3
  | TkAction.CloseAll => 4

/-- Modelled from the spec: the `Add`/`AddAssign` impls on `TkAction` used
by the example (`ak + ...`, `action += ...` in kas-wgpu/examples/list-view.rs)
are not in the excerpt; the spec says the enum is "monotonically combinable
(max of severity)". -/
def TkAction.combine (a b : TkAction) : TkAction :=
  if a.sev ≤ b.sev then b else a

/-! ### ListView (src/widget/view/list.rs) and the example model driver
(src/kas-wgpu/examples/list-view.rs)

The view wraps a `ScrollRegion<Column<Label>>`; the column's children are
embedded as the list of label strings. -/

/-- Messages returned from a view (list.rs lines 38-47). -/
inductive ListViewMsg where
  | None
  | DataRange
  | DataRows (begin_ idx_end : Nat)
deriving DecidableEq, Repr

/-- Modelled from the spec: `Column::clear` (the column widget is not in the
excerpt) removes all child widgets and returns the toolkit action requesting
the reconfigure that a changed child set needs. -/
def column_clear (_labels : List String) : List String × TkAction :=
  ([], TkAction.Reconfigure)

/-- Modelled from the spec: `Vec::reserve`-style capacity reservation on the
column ("`data_range(len)` which reserves capacity"); it does not change the
children. -/
def column_reserve (labels : List String) (_len : Nat) : List String := labels

/-- Modelled from the spec: `Column::push` appends one child widget and
returns the toolkit action requesting the reconfigure that a changed child
set needs. -/
def column_push (labels : List String) (label : String) : List String × TkAction :=
  (labels ++ [label], TkAction.Reconfigure)

/-- State of a `ListView` (list.rs lines 55-62): the column's children (as
label strings), the frame metrics computed by `size_rules`, the view's own
rect and the inner widget's rect. -/
structure ListView where
  labels : List String
  frame_offset : Coord
  frame_size : Size
  core_rect : Rect
  w_rect : Rect
deriving DecidableEq, Repr

namespace ListView

/-- Embeds `ListView::refresh` (list.rs lines 92-94): clear the column and
emit `DataRange`. Returns the updated view, the clear action and the
message. -/
def refresh (lv : ListView) : ListView × TkAction × ListViewMsg :=
  let c := column_clear lv.labels
  ({ lv with labels := c.1 }, c.2, ListViewMsg.DataRange)

/-- Embeds `ListView::data_range` (list.rs lines 103-106): reserve capacity
and answer `DataRows(0, len)`. -/
def data_range (lv : ListView) (len : Nat) : ListView × ListViewMsg :=
  ({ lv with labels := column_reserve lv.labels len }, ListViewMsg.DataRows 0 len)

/-- Embeds `ListView::data_row` (list.rs lines 109-113): push one label; the
`_index` argument is unused (marked `// TODO: allow rows to be provided in
any order`). -/
def data_row (lv : ListView) (_index : Nat) (row : String) : ListView × TkAction :=
  let p := column_push lv.labels row
  ({ lv with labels := p.1 }, p.2)

/-- Embeds `<ListView as Layout>::set_rect` (list.rs lines 138-145): store
the rect, then assign the inner widget the rect shrunk by the frame via
saturating subtraction. -/
def set_rect (lv : ListView) (rect : Rect) : ListView :=
  { lv with
    core_rect := rect
    w_rect := { pos := rect.pos.add lv.frame_offset
                size := rect.size.saturating_sub lv.frame_size } }

end ListView

/-- Rank used to show the example driver's message recursion terminates:
`data_range` answers `DataRange` with `DataRows`, which does not recurse. -/
def ListViewMsg.rank : ListViewMsg → Nat
  | ListViewMsg.None => 0
  | ListViewMsg.DataRows _ _ => 1
  | ListViewMsg.DataRange => 2

/-- Embeds the `for i in begin..end` loop of `DataModel::view_request`
(kas-wgpu/examples/list-view.rs lines 37-41): fold `data_row` over the index
range, accumulating the action with `+=`. Rust's `self.data[i]` indexing is
embedded with `getD` (every reachable call has `i < data.length`). -/
def view_rows_loop (data : List String) : List Nat → ListView → TkAction →
    ListView × TkAction
  | [], lv, action => (lv, action)
  | i :: rest, lv, action =>
    let r := lv.data_row i (data.getD i "")
    view_rows_loop data rest r.1 (action.combine r.2)

/-- Embeds `DataModel::view_request` (kas-wgpu/examples/list-view.rs lines
29-44): answer `DataRange` with `data_range` and recurse on the returned
message; answer `DataRows(begin,end)` with the `data_row` loop. -/
def view_request (data : List String) (lv : ListView) :
    ListViewMsg → ListView × TkAction
  | ListViewMsg.None => (lv, TkAction.None)
  | ListViewMsg.DataRange =>
    let r := lv.data_range data.length
    view_request data r.1 r.2
  | ListViewMsg.DataRows b e =>
    view_rows_loop data (List.range' b (e - b)) lv TkAction.None
termination_by msg => msg.rank
decreasing_by simp [ListView.data_range, ListViewMsg.rank]

/-- Embeds `DataModel::refresh` (kas-wgpu/examples/list-view.rs lines 24-27):
`let (ak, msg) = self.view.refresh(); ak + self.view_request(msg)`. -/
def model_refresh (data : List String) (lv : ListView) : ListView × TkAction :=
  let r := lv.refresh
  let v := view_request data r.1 r.2.2
  (v.1, r.2.1.combine v.2)

/-- Collector running the same traversal as `view_rows_loop` but recording
the individual `data_row` actions instead of folding them. -/
def view_rows_actions (data : List String) : List Nat → ListView → List TkAction
  | [], _ => []
  | i :: rest, lv =>
    let r := lv.data_row i (data.getD i "")
    r.2 :: view_rows_actions data rest r.1

/-- List of the toolkit actions issued during one full refresh cycle, in
issue order: the clear action from `refresh`, then each `data_row` action
issued while answering `DataRows(0, len)`. Mirrors the accumulation path of
`model_refresh`. -/
def cycle_actions (data : List String) (lv : ListView) : List TkAction :=
  let r := lv.refresh
  let d := r.1.data_range data.length
  r.2.1 :: view_rows_actions data (List.range' 0 (data.length - 0)) d.1

/-! ### ListData for slices (src/widget/view/data_traits.rs lines 89-113) -/

/-- Embeds `<[T] as ListData>::len`. -/
def slice_len (l : List α) : Nat := l.length

/-- Embeds `<[T] as ListData>::get_cloned`: `self.get(*key).cloned()`. -/
def slice_get_cloned (l : List α) (key : Nat) : Option α := l.get? key

/-- Embeds `<[T] as ListData>::iter_vec` (data_traits.rs lines 101-103):
`self.iter().cloned().enumerate().take(limit).collect()`. -/
def slice_iter_vec (l : List α) (limit : Nat) : List (Nat × α) :=
  l.enum.take limit

/-- Embeds `<[T] as ListData>::iter_vec_from` (data_traits.rs lines
105-112): `self.iter().cloned().enumerate().skip(start).take(limit)`. -/
def slice_iter_vec_from (l : List α) (start limit : Nat) : List (Nat × α) :=
  (l.enum.drop start).take limit

/-- Widget used to exhibit the behaviour of `solve` on a concrete input: a
widget whose size preference is 7 on every axis. -/
def c1_widget : AxisInfo → SizeRules :=
  fun _ => { min := 7, ideal := 7, stretch := StretchPriority.None, margins := (0, 0) }

/-- Concrete drag handle: track at the origin of size 10 times 10, handle of
size 2 times 2 positioned at offset (8,8), no active press. -/
def c5_drag : DragHandle :=
  { core_rect := ⟨⟨8, 8⟩, ⟨2, 2⟩⟩
    track := ⟨⟨0, 0⟩, ⟨10, 10⟩⟩
    press_source := none
    press_offset := Coord.ZERO }

/-- Concrete rect assigned to the drag handle's track: same origin but only
4 times 4, so the stored offset (8,8) exceeds the new bound 4 - 2 = 2. -/
def c5_rect : Rect := ⟨⟨0, 0⟩, ⟨4, 4⟩⟩

/-! ## Theorems -/

/-- Claim C1, counterexample: `solve` does not pass the width preference
obtained from the horizontal pass to the vertical pass. With a widget whose
width preference is 7 (both `min` and `ideal`) and a caller-supplied size of
(5,9), the vertical pass receives `Some 5` — the caller-supplied available
width — and not `Some 7`. -/
theorem solve_vert_axis_is_not_width_pref :
    (solve c1_widget ⟨5, 9⟩).vert_axis.other_axis_resolved = some 5 ∧
    (solve c1_widget ⟨5, 9⟩).horiz_result.ideal = 7 ∧
    (solve c1_widget ⟨5, 9⟩).horiz_result.min = 7 ∧
    (solve c1_widget ⟨5, 9⟩).vert_axis.other_axis_resolved ≠
      some (solve c1_widget ⟨5, 9⟩).horiz_result.ideal := by
  refine ⟨rfl, rfl, rfl, ?_⟩
  decide

/-- Claim C1 (amended): `solve(widget, size)` first calls `size_rules` for
the horizontal axis with `other_axis_resolved = None`, then for the vertical
axis with `other_axis_resolved = Some(size.0)` where `size.0` is the
caller-supplied available width; both pass results are obtained from those
exact calls and then discarded. -/
theorem solve_two_pass_protocol (size_rules : AxisInfo → SizeRules) (size : Size) :
    (solve size_rules size).horiz_axis = AxisInfo.new false none ∧
    (solve size_rules size).vert_axis = AxisInfo.new true (some size.w) ∧
    (solve size_rules size).horiz_result = size_rules (AxisInfo.new false none) ∧
    (solve size_rules size).vert_result = size_rules (AxisInfo.new true (some size.w)) :=
  ⟨rfl, rfl, rfl, rfl⟩

/-- Claim C2, counterexample: the only `RulesSolver` implementation provided
by the layout module is the dummy impl for `()`, and its `finish`, called
with no preceding `for_child` call (empty span iterators), panics via
`unimplemented!()` instead of returning `SizeRules::EMPTY`. -/
theorem unit_solver_finish_panics_on_empty :
    unitSolver_finish [] [] ≠ Panics.ok SizeRules.EMPTY := by
  simp [unitSolver_finish]

/-- Claim C2 (amended): for the dummy `()` implementation of `RulesSolver` —
the only one the layout module provides — `for_child` is a no-op and
`finish` always panics (`unimplemented!()`), regardless of which `for_child`
calls preceded it; it never returns `SizeRules::EMPTY`. -/
theorem unit_solver_finish_always_panics
    (col_spans row_spans : List (Nat × Nat × Nat)) :
    unitSolver_finish col_spans row_spans = Panics.panicked "not implemented" ∧
    unitSolver_for_child () = () ∧
    unitSolver_finish col_spans row_spans ≠ Panics.ok SizeRules.EMPTY := by
  refine ⟨rfl, rfl, ?_⟩
  simp [unitSolver_finish]

/-- Claim C2 amended witness: the amended claim at concrete (empty) span
iterator inputs. -/
theorem unit_solver_finish_always_panics_witness :
    unitSolver_finish [] [] = Panics.panicked "not implemented" ∧
    unitSolver_for_child () = () ∧
    unitSolver_finish [] [] ≠ Panics.ok SizeRules.EMPTY :=
  unit_solver_finish_always_panics [] []

/-- Claim C9: `ListView::set_rect` is total; the inner child's size is the
saturating difference of the assigned rect size and the stored frame size,
so each component equals `max (rect - frame) 0` over the integers — it
never wraps below zero — and never exceeds the assigned size. -/
theorem list_view_set_rect_saturates (lv : ListView) (rect : Rect) :
    (lv.set_rect rect).core_rect = rect ∧
    (lv.set_rect rect).w_rect.pos = rect.pos.add lv.frame_offset ∧
    (((lv.set_rect rect).w_rect.size.w : Int) =
      max ((rect.size.w : Int) - (lv.frame_size.w : Int)) 0) ∧
    (((lv.set_rect rect).w_rect.size.h : Int) =
      max ((rect.size.h : Int) - (lv.frame_size.h : Int)) 0) ∧
    (lv.set_rect rect).w_rect.size.w ≤ rect.size.w ∧
    (lv.set_rect rect).w_rect.size.h ≤ rect.size.h ∧
    (lv.set_rect rect).labels = lv.labels := by
  refine ⟨rfl, rfl, ?_, ?_, ?_, ?_, rfl⟩ <;>
    simp [ListView.set_rect, Size.saturating_sub, satSub] <;>
    split <;> omega

/-- Claim C10: `ListView::data_row` ignores its index argument entirely: the
resulting state and returned action are identical for any two indices, and
the row is appended at the end of the child list regardless of the index. -/
theorem list_view_data_row_ignores_index (lv : ListView) (i j : Nat) (row : String) :
    lv.data_row i row = lv.data_row j row ∧
    (lv.data_row i row).1.labels = lv.labels ++ [row] ∧
    (lv.data_row i row).2 = TkAction.Reconfigure :=
  ⟨rfl, rfl, rfl⟩

/-- Claim C3: whenever the handle size is componentwise at most the track
size, `set_offset(x)` returns, for arbitrary `x`, an offset whose components
lie in `[0, T - H]`, and afterwards `offset()` equals the returned offset. -/
theorem drag_set_offset_clamps (d : DragHandle) (x : Coord)
    (hw : d.core_rect.size.w ≤ d.track.size.w)
    (hh : d.core_rect.size.h ≤ d.track.size.h) :
    0 ≤ ((d.set_offset x).2.1).x ∧
    ((d.set_offset x).2.1).x ≤ (d.track.size.w : Int) - (d.core_rect.size.w : Int) ∧
    0 ≤ ((d.set_offset x).2.1).y ∧
    ((d.set_offset x).2.1).y ≤ (d.track.size.h : Int) - (d.core_rect.size.h : Int) ∧
    ((d.set_offset x).1).offset = (d.set_offset x).2.1 := by
  obtain ⟨⟨⟨cx, cy⟩, ⟨cw, ch⟩⟩, ⟨⟨tx, ty⟩, ⟨tw, th⟩⟩, ps, po⟩ := d
  obtain ⟨xx, xy⟩ := x
  simp only [] at hw hh
  unfold DragHandle.set_offset
  simp only [DragHandle.max_offset, Coord.clamped, Coord.fromSize, Coord.sub,
    Coord.add, Coord.ZERO, DragHandle.offset, ne_eq, Coord.mk.injEq]
  split <;> refine ⟨?_, ?_, ?_, ?_, ?_⟩ <;> simp_all [Coord.sub, Coord.mk.injEq] <;> omega

/-- Claim C3 witness: the theorem at a concrete handle (track 10 times 10 at
the origin, handle 2 times 2) and the out-of-range input offset (100, -5). -/
theorem drag_set_offset_clamps_witness :
    0 ≤ ((c5_drag.set_offset ⟨100, -5⟩).2.1).x ∧
    ((c5_drag.set_offset ⟨100, -5⟩).2.1).x ≤
      (c5_drag.track.size.w : Int) - (c5_drag.core_rect.size.w : Int) ∧
    0 ≤ ((c5_drag.set_offset ⟨100, -5⟩).2.1).y ∧
    ((c5_drag.set_offset ⟨100, -5⟩).2.1).y ≤
      (c5_drag.track.size.h : Int) - (c5_drag.core_rect.size.h : Int) ∧
    ((c5_drag.set_offset ⟨100, -5⟩).1).offset = (c5_drag.set_offset ⟨100, -5⟩).2.1 :=
  drag_set_offset_clamps c5_drag ⟨100, -5⟩ (by decide) (by decide)

/-- Claim C5, counterexample: `Layout::set_rect` on `DragHandle` stores the
new track but does not re-clamp the offset. Starting from a handle of size 2
at offset (8,8) in a 10 times 10 track, assigning a 4 times 4 track leaves
the offset at 8, strictly above the new bound `T - H = 2`, so the invariant
is not re-established by the track change itself. -/
theorem drag_set_rect_does_not_reclamp :
    ((c5_drag.set_rect c5_rect).offset).x = 8 ∧
    ((c5_drag.set_rect c5_rect).track.size.w : Int) -
      ((c5_drag.set_rect c5_rect).core_rect.size.w : Int) = 2 ∧
    ¬(((c5_drag.set_rect c5_rect).offset).x ≤
      ((c5_drag.set_rect c5_rect).track.size.w : Int) -
        ((c5_drag.set_rect c5_rect).core_rect.size.w : Int)) := by
  refine ⟨rfl, rfl, ?_⟩
  decide

/-- Claim C5 (amended): `set_rect` alone only stores the track and leaves the
handle rect and press state untouched; the offset invariant is re-established
by `set_size_and_offset`, which the parent is documented to call after every
`set_rect`, and which also re-clamps after any handle-size change: whenever
the new handle size is componentwise at most the track size, the offset after
`set_size_and_offset(size, offset)` lies in `[0, T - H]` componentwise. -/
theorem drag_set_size_and_offset_reclamps (d : DragHandle) (rect : Rect)
    (size : Size) (x : Coord)
    (hw : size.w ≤ d.track.size.w) (hh : size.h ≤ d.track.size.h) :
    (d.set_rect rect).core_rect = d.core_rect ∧
    (d.set_rect rect).press_source = d.press_source ∧
    (d.set_rect rect).track = rect ∧
    0 ≤ (((d.set_size_and_offset size x).1).offset).x ∧
    (((d.set_size_and_offset size x).1).offset).x ≤
      (d.track.size.w : Int) - (size.w : Int) ∧
    0 ≤ (((d.set_size_and_offset size x).1).offset).y ∧
    (((d.set_size_and_offset size x).1).offset).y ≤
      (d.track.size.h : Int) - (size.h : Int) := by
  refine ⟨rfl, rfl, rfl, ?_, ?_, ?_, ?_⟩
  all_goals
    obtain ⟨⟨⟨cx, cy⟩, ⟨cw, ch⟩⟩, ⟨⟨tx, ty⟩, ⟨tw, th⟩⟩, ps, po⟩ := d
    obtain ⟨xx, xy⟩ := x
    obtain ⟨sw, sh⟩ := size
    simp only [] at hw hh
    unfold DragHandle.set_size_and_offset DragHandle.set_offset
    simp only [DragHandle.max_offset, Coord.clamped, Coord.fromSize, Coord.sub,
      Coord.add, Coord.ZERO, DragHandle.offset, ne_eq, Coord.mk.injEq]
    split <;> simp_all [Coord.sub, Coord.mk.injEq] <;> omega

/-- Claim C5 amended witness: the amended claim at the concrete handle of the
counterexample, after assigning the shrunk track and then calling
`set_size_and_offset` with the previous size and offset. -/
theorem drag_set_size_and_offset_reclamps_witness :
    ((c5_drag.set_rect c5_rect).set_rect c5_rect).core_rect =
      (c5_drag.set_rect c5_rect).core_rect ∧
    ((c5_drag.set_rect c5_rect).set_rect c5_rect).press_source =
      (c5_drag.set_rect c5_rect).press_source ∧
    ((c5_drag.set_rect c5_rect).set_rect c5_rect).track = c5_rect ∧
    0 ≤ ((((c5_drag.set_rect c5_rect).set_size_and_offset ⟨2, 2⟩ ⟨8, 8⟩).1).offset).x ∧
    ((((c5_drag.set_rect c5_rect).set_size_and_offset ⟨2, 2⟩ ⟨8, 8⟩).1).offset).x ≤
      ((c5_drag.set_rect c5_rect).track.size.w : Int) - ((2 : Nat) : Int) ∧
    0 ≤ ((((c5_drag.set_rect c5_rect).set_size_and_offset ⟨2, 2⟩ ⟨8, 8⟩).1).offset).y ∧
    ((((c5_drag.set_rect c5_rect).set_size_and_offset ⟨2, 2⟩ ⟨8, 8⟩).1).offset).y ≤
      ((c5_drag.set_rect c5_rect).track.size.h : Int) - ((2 : Nat) : Int) :=
  drag_set_size_and_offset_reclamps (c5_drag.set_rect c5_rect) c5_rect ⟨2, 2⟩ ⟨8, 8⟩
    (by decide) (by decide)

/-- Claim C6: while the drag handle holds a press grab for source `s`, a
`PressMove` or `PressEnd` event carrying a different source is not handled by
the drag branches: it falls through to the generic handler, which leaves the
widget (handle rect, track, press bookkeeping — in particular the grab is not
released) and the manager unchanged and produces no message. -/
theorem drag_event_ignores_other_sources (d : DragHandle) (mgr : Manager)
    (s s' : PressSource) (c : Coord)
    (hs : d.press_source = some s) (hne : s' ≠ s) :
    d.event mgr (Event.PressMove s' c) =
      Manager.handle_generic d mgr (Event.PressMove s' c) ∧
    d.event mgr (Event.PressEnd s') =
      Manager.handle_generic d mgr (Event.PressEnd s') ∧
    d.event mgr (Event.PressMove s' c) = (d, mgr, Response.None) ∧
    d.event mgr (Event.PressEnd s') = (d, mgr, Response.None) := by
  have h : ¬(some s' = d.press_source) := by
    rw [hs]
    simp [hne]
  refine ⟨?_, ?_, ?_, ?_⟩ <;> simp [DragHandle.event, h, Manager.handle_generic]

/-- Claim C6 witness: the theorem at a concrete grabbed handle (grab held for
source 0) receiving events from source 1. -/
theorem drag_event_ignores_other_sources_witness :
    ({ c5_drag with press_source := some 0 } : DragHandle).event ⟨true, 0⟩
        (Event.PressMove 1 ⟨3, 3⟩) =
      Manager.handle_generic { c5_drag with press_source := some 0 } ⟨true, 0⟩
        (Event.PressMove 1 ⟨3, 3⟩) ∧
    ({ c5_drag with press_source := some 0 } : DragHandle).event ⟨true, 0⟩
        (Event.PressEnd 1) =
      Manager.handle_generic { c5_drag with press_source := some 0 } ⟨true, 0⟩
        (Event.PressEnd 1) ∧
    ({ c5_drag with press_source := some 0 } : DragHandle).event ⟨true, 0⟩
        (Event.PressMove 1 ⟨3, 3⟩) =
      ({ c5_drag with press_source := some 0 }, ⟨true, 0⟩, Response.None) ∧
    ({ c5_drag with press_source := some 0 } : DragHandle).event ⟨true, 0⟩
        (Event.PressEnd 1) =
      ({ c5_drag with press_source := some 0 }, ⟨true, 0⟩, Response.None) :=
  drag_event_ignores_other_sources { c5_drag with press_source := some 0 }
    ⟨true, 0⟩ 0 1 ⟨3, 3⟩ rfl (by decide)

/-- Combining raises severity to the maximum of the two operands. -/
lemma tk_sev_combine (a b : TkAction) : (a.combine b).sev = max a.sev b.sev := by
  unfold TkAction.combine
  split <;> omega

/-- Combining never invents a new action: the result is one of the operands. -/
lemma tk_combine_eq_or (a b : TkAction) : a.combine b = a ∨ a.combine b = b := by
  unfold TkAction.combine
  split
  · exact Or.inr rfl
  · exact Or.inl rfl

/-- Folding `combine` never lowers the severity of the accumulator. -/
lemma tk_foldl_sev_le (l : List TkAction) :
    ∀ acc : TkAction, acc.sev ≤ (l.foldl TkAction.combine acc).sev := by
  induction l with
  | nil => intro acc; simp
  | cons x xs ih =>
    intro acc
    have h1 : acc.sev ≤ (acc.combine x).sev := by
      rw [tk_sev_combine]
      omega
    calc acc.sev ≤ (acc.combine x).sev := h1
      _ ≤ ((x :: xs).foldl TkAction.combine acc).sev := by
        simp only [List.foldl]
        exact ih (acc.combine x)

/-- Folding `combine` dominates the severity of every list element. -/
lemma tk_mem_foldl_le (l : List TkAction) :
    ∀ (acc a : TkAction), a ∈ l → a.sev ≤ (l.foldl TkAction.combine acc).sev := by
  induction l with
  | nil => intro acc a h; cases h
  | cons x xs ih =>
    intro acc a h
    simp only [List.foldl]
    rcases List.mem_cons.mp h with rfl | hxs
    · have h1 : a.sev ≤ (acc.combine a).sev := by
        rw [tk_sev_combine]
        omega
      exact le_trans h1 (tk_foldl_sev_le xs (acc.combine a))
    · exact ih (acc.combine x) a hxs

/-- Folding `combine` yields the accumulator or one of the list elements. -/
lemma tk_foldl_mem (l : List TkAction) :
    ∀ acc : TkAction, l.foldl TkAction.combine acc ∈ acc :: l := by
  induction l with
  | nil => intro acc; simp
  | cons x xs ih =>
    intro acc
    simp only [List.foldl]
    have h := ih (acc.combine x)
    rcases tk_combine_eq_or acc x with he | he <;>
      rw [he] at h <;>
      rcases List.mem_cons.mp h with h' | h' <;>
      simp [he, h', List.mem_cons]

/-- Claim C7: `TkAction` is totally ordered by severity with
`None < Redraw < Reconfigure < Close < CloseAll`; combining takes the
maximum of the two severities, hence is associative, commutative,
idempotent, has `None` as identity, and folding it over any sequence of
actions collapses the sequence to its single most severe action. -/
theorem tk_action_severity_lattice :
    (TkAction.None.sev < TkAction.Redraw.sev ∧
      TkAction.Redraw.sev < TkAction.Reconfigure.sev ∧
      TkAction.Reconfigure.sev < TkAction.Close.sev ∧
      TkAction.Close.sev < TkAction.CloseAll.sev) ∧
    (∀ a b : TkAction, a.sev ≤ b.sev ∨ b.sev ≤ a.sev) ∧
    (∀ a b : TkAction, a.sev = b.sev → a = b) ∧
    (∀ a b : TkAction, (a.combine b).sev = max a.sev b.sev ∧
      (a.combine b = a ∨ a.combine b = b)) ∧
    (∀ a b c : TkAction, (a.combine b).combine c = a.combine (b.combine c)) ∧
    (∀ a b : TkAction, a.combine b = b.combine a) ∧
    (∀ a : TkAction, a.combine a = a) ∧
    (∀ a : TkAction, TkAction.None.combine a = a ∧ a.combine TkAction.None = a) ∧
    (∀ (l : List TkAction) (a : TkAction), a ∈ l →
      a.sev ≤ (l.foldl TkAction.combine TkAction.None).sev) ∧
    (∀ l : List TkAction, l.foldl TkAction.combine TkAction.None ∈ TkAction.None :: l) := by
  refine ⟨by decide, by decide, by decide, ?_, by decide, by decide, by decide, by decide,
    ?_, ?_⟩
  · intro a b
    exact ⟨tk_sev_combine a b, tk_combine_eq_or a b⟩
  · intro l a h
    exact tk_mem_foldl_le l TkAction.None a h
  · intro l
    exact tk_foldl_mem l TkAction.None

/-- Claim C7 witness: the fold-collapse component of the theorem at the
concrete sequence `[Redraw, Close, Redraw]` and element `Close`. -/
theorem tk_action_severity_lattice_witness :
    (TkAction.Close).sev ≤
      ([TkAction.Redraw, TkAction.Close, TkAction.Redraw].foldl
        TkAction.combine TkAction.None).sev :=
  tk_action_severity_lattice.2.2.2.2.2.2.2.2.1
    [TkAction.Redraw, TkAction.Close, TkAction.Redraw] TkAction.Close (by decide)

/-- Claim C8: for the slice implementation of `ListData`, `iter_vec_from`
returns exactly `iter_vec(start + limit)` with the first `start` entries
skipped: its length is `min limit (len - start)` and its `k`-th entry is the
`(start + k)`-th `(key, value)` pair of the enumeration, in index order. -/
theorem slice_iter_vec_from_skip {α : Type} (l : List α) (start limit : Nat) :
    slice_iter_vec_from l start limit = (slice_iter_vec l (start + limit)).drop start ∧
    (slice_iter_vec_from l start limit).length = min limit (l.length - start) ∧
    (∀ k : Nat, k < limit →
      (slice_iter_vec_from l start limit)[k]? = l.enum[start + k]?) := by
  refine ⟨?_, ?_, ?_⟩
  · simp [slice_iter_vec_from, slice_iter_vec, List.drop_take, Nat.add_sub_cancel_left]
  · simp [slice_iter_vec_from, List.length_take, List.length_drop, List.enum_length]
  · intro k hk
    simp [slice_iter_vec_from, List.getElem?_take, hk, List.getElem?_drop]

/-- Claim C8 witness: the entry characterization at the concrete slice
`["a", "b", "c"]`, `start = 1`, `limit = 1`, entry `k = 0`. -/
theorem slice_iter_vec_from_skip_witness :
    (slice_iter_vec_from ["a", "b", "c"] 1 1)[0]? = (["a", "b", "c"].enum)[1 + 0]? :=
  (slice_iter_vec_from_skip ["a", "b", "c"] 1 1).2.2 0 (by decide)

/-- The row loop's resulting action is the fold of the individually issued
actions over the starting accumulator. -/
lemma rows_loop_action_fold (data : List String) :
    ∀ (idxs : List Nat) (lv : ListView) (action : TkAction),
      (view_rows_loop data idxs lv action).2 =
        (view_rows_actions data idxs lv).foldl TkAction.combine action := by
  intro idxs
  induction idxs with
  | nil => intro lv action; rfl
  | cons i rest ih =>
    intro lv action
    simp only [view_rows_loop, view_rows_actions, List.foldl]
    exact ih _ _

/-- Every action issued by the row loop is the reconfigure request of
`column_push`. -/
lemma rows_actions_reconfigure (data : List String) :
    ∀ (idxs : List Nat) (lv : ListView),
      view_rows_actions data idxs lv = idxs.map (fun _ => TkAction.Reconfigure) := by
  intro idxs
  induction idxs with
  | nil => intro lv; rfl
  | cons i rest ih =>
    intro lv
    simp only [view_rows_actions, List.map]
    rw [ih]
    rfl

/-- Folding `combine` over a constant `Reconfigure` list either keeps the
accumulator (empty list) or combines it once with `Reconfigure`. -/
lemma foldl_combine_reconfigure (idxs : List Nat) :
    ∀ a : TkAction,
      (idxs.map (fun _ => TkAction.Reconfigure)).foldl TkAction.combine a =
        if idxs.isEmpty then a else a.combine TkAction.Reconfigure := by
  induction idxs with
  | nil => intro a; rfl
  | cons i rest ih =>
    intro a
    simp only [List.map, List.foldl, List.isEmpty_cons]
    rw [ih]
    have h : (a.combine TkAction.Reconfigure).combine TkAction.Reconfigure =
        a.combine TkAction.Reconfigure := by
      revert a
      decide
    split <;> simp [h]

/-- The row loop over indices `[b, b + n)` appends exactly the rows
`data[b], ..., data[b + n - 1]` in index order. -/
lemma rows_loop_labels (data : List String) :
    ∀ (n b : Nat) (lv : ListView) (action : TkAction), b + n ≤ data.length →
      (view_rows_loop data (List.range' b n) lv action).1.labels =
        lv.labels ++ (data.drop b).take n := by
  intro n
  induction n with
  | zero => intro b lv action h; simp [view_rows_loop]
  | succ m ih =>
    intro b lv action h
    have hb : b < data.length := by omega
    rw [List.range'_succ]
    simp only [view_rows_loop]
    rw [ih (b + 1) _ _ (by omega)]
    rw [List.drop_eq_getElem_cons hb, List.take_succ_cons]
    simp only [ListView.data_row, column_push, List.getD_eq_getElem data "" hb]
    simp [List.append_assoc]

/-- The refresh cycle driven by the example model: unfolding `model_refresh`
to the row loop over all indices. -/
lemma model_refresh_unfold (data : List String) (lv : ListView) :
    model_refresh data lv =
      (let loop := view_rows_loop data (List.range' 0 (data.length - 0))
        { lv with labels := [] } TkAction.None
      (loop.1, TkAction.Reconfigure.combine loop.2)) := by
  simp only [model_refresh, ListView.refresh, column_clear]
  rw [view_request.eq_2]
  simp only [ListView.data_range, column_reserve]
  rw [view_request.eq_3]

/-- Claim C4: one full ListView refresh cycle. `refresh` clears the children
and returns `DataRange`; `data_range(len)` returns `DataRows(0, len)` without
touching the children; each `data_row` appends exactly one child; after the
driver answers the whole protocol for `data`, the view holds exactly the rows
of `data` in supply order, and the returned action is the fold of all
intermediate actions under `combine` — it dominates each of them in severity
and is itself one of them (the most severe requested). -/
theorem list_view_refresh_cycle (data : List String) (lv : ListView) :
    (lv.refresh).1.labels = [] ∧
    (lv.refresh).2.2 = ListViewMsg.DataRange ∧
    (∀ (lv2 : ListView) (n : Nat), (lv2.data_range n).2 = ListViewMsg.DataRows 0 n ∧
      (lv2.data_range n).1.labels = lv2.labels) ∧
    (∀ (lv2 : ListView) (i : Nat) (row : String),
      (lv2.data_row i row).1.labels = lv2.labels ++ [row]) ∧
    (model_refresh data lv).1.labels = data ∧
    (model_refresh data lv).2 =
      (cycle_actions data lv).foldl TkAction.combine TkAction.None ∧
    (∀ a ∈ cycle_actions data lv, a.sev ≤ ((model_refresh data lv).2).sev) ∧
    (model_refresh data lv).2 ∈ cycle_actions data lv := by
  have hlabels : (model_refresh data lv).1.labels = data := by
    rw [model_refresh_unfold]
    simp only []
    rw [rows_loop_labels data (data.length - 0) 0 _ _ (by omega)]
    simp
  have hact : (model_refresh data lv).2 = TkAction.Reconfigure := by
    rw [model_refresh_unfold]
    simp only []
    rw [rows_loop_action_fold, rows_actions_reconfigure, foldl_combine_reconfigure]
    split <;> rfl
  have hcycle : cycle_actions data lv =
      TkAction.Reconfigure ::
        (List.range' 0 (data.length - 0)).map (fun _ => TkAction.Reconfigure) := by
    simp only [cycle_actions, ListView.refresh, column_clear, ListView.data_range,
      column_reserve]
    rw [rows_actions_reconfigure]
  have hcyclefold :
      (cycle_actions data lv).foldl TkAction.combine TkAction.None =
        TkAction.Reconfigure := by
    rw [hcycle]
    simp only [List.foldl]
    rw [foldl_combine_reconfigure]
    split <;> rfl
  refine ⟨rfl, rfl, fun lv2 n => ⟨rfl, rfl⟩, fun lv2 i row => rfl, hlabels, ?_, ?_, ?_⟩
  · rw [hact, hcyclefold]
  · intro a ha
    rw [hcycle] at ha
    rcases List.mem_cons.mp ha with rfl | ha
    · rw [hact]
    · rcases List.mem_map.mp ha with ⟨i, _, rfl⟩
      rw [hact]
  · rw [hact, hcycle]
    exact List.mem_cons_self _ _

/-- Claim C4 witness: the severity-domination component of the theorem at the
concrete model `["a", "b", "c"]`, an empty initial view, and the head of the
issued-action list. -/
theorem list_view_refresh_cycle_witness :
    TkAction.Reconfigure.sev ≤
      ((model_refresh ["a", "b", "c"]
        { labels := [], frame_offset := Coord.ZERO, frame_size := ⟨0, 0⟩
          core_rect := ⟨Coord.ZERO, ⟨0, 0⟩⟩, w_rect := ⟨Coord.ZERO, ⟨0, 0⟩⟩ }).2).sev :=
  (list_view_refresh_cycle ["a", "b", "c"]
    { labels := [], frame_offset := Coord.ZERO, frame_size := ⟨0, 0⟩
      core_rect := ⟨Coord.ZERO, ⟨0, 0⟩⟩, w_rect := ⟨Coord.ZERO, ⟨0, 0⟩⟩ }).2.2.2.2.2.2.1
    TkAction.Reconfigure (by decide)

end Kas
